import Mathlib

/-!
Verification of the Rocket CSRF anti-forgery token subsystem
(`contrib/csrf`): the two-generation key holder (`key.rs`), token issuance
and validation (`tokenizer.rs`), the token wire format
(`ToString`/`FromStr` in `tokenizer.rs` with `base64_len` from `lib.rs`),
session fetching (`session.rs`), rotation configuration (`config.rs`) and
fairing activation (`fairing.rs`).

Modelling conventions:
* Machine integers become `Nat` (or `Int` for `i64`) with explicit
  `% 2 ^ 32` where overflow matters; `u32::saturating_sub` on values below
  `2 ^ 32` is exactly `Nat` subtraction, which is saturating.
* The 256-bit signing keys produced by `rand::random` are opaque values
  modelled as `Nat`; freshness of independent random draws appears as
  explicit distinctness hypotheses where a claim needs it.
* `blake3::keyed_hash` is an external cryptographic primitive; it is
  modelled symbolically as the injective pairing of the key with the hashed
  message (the standard ideal-MAC model).  The wire format never interprets
  the hash, so there the hash is its 32 raw bytes.
* The `ArcSwap` snapshot is modelled by explicit sequential state passing:
  each operation takes the current `TokenizerState` and returns the new
  one.  Bytes are `Nat` values below 256; strings are lists of character
  codes.
-/

namespace RocketCsrf

/-- Modulus of `u32` arithmetic. -/
def U32_MOD : Nat := 4294967296

/-- Model of `Rotatable<T>` (`key.rs`): a two-generation value holder with a
monotonic (wrapping `u32`) generation counter. -/
structure Rotatable (α : Type) where
  generation : Nat
  current : α
  previous : Option α
  deriving DecidableEq

/-- Model of `Rotatable::new`: generation 0, no previous value. -/
def Rotatable.new (value : α) : Rotatable α :=
  { generation := 0, current := value, previous := none }

/-- Model of `Rotatable::rotate`: the old `current` moves into `previous` and
the generation is bumped with `u32::wrapping_add(1)`. -/
def Rotatable.rotate (r : Rotatable α) (new : α) : Rotatable α :=
  { generation := (r.generation + 1) % U32_MOD
    current := new
    previous := some r.current }

/-- Model of `Rotatable::iter`: `current` then `previous` if present. -/
def Rotatable.iter (r : Rotatable α) : List α :=
  r.current :: r.previous.toList

/-- Model of the `AsRef` impl on `Rotatable`: a view of `current`. -/
def Rotatable.asRef (r : Rotatable α) : α :=
  r.current

/-- Model of `Context` (`tokenizer.rs`): `repr(u8)` with discriminants
`Javascript = 0` and `Form = 1`. -/
inductive Context where
  | Javascript
  | Form
  deriving DecidableEq

/-- Discriminant byte of a `Context` value (its `repr(u8)` encoding). -/
def Context.toByte : Context → Nat
  | .Javascript => 0
  | .Form => 1

/-- Inverse of `Context.toByte`, as `zerocopy::TryFromBytes` validates the
discriminant: only 0 and 1 are accepted. -/
def Context.ofByte : Nat → Option Context
  | 0 => some .Javascript
  | 1 => some .Form
  | _ => none

/-- Model of `TokenData` (`tokenizer.rs`): the packed record
`{ age: u32, generation: u32, session: u64, context: Context, nonce: [u8; 7] }`. -/
structure TokenData where
  age : Nat
  generation : Nat
  session : Nat
  context : Context
  nonce : List Nat
  deriving DecidableEq

/-- Wellformedness of a `TokenData` value as the Rust types force it: fields
within machine-integer range and a 7-byte nonce. -/
def TokenData.WF (d : TokenData) : Prop :=
  d.age < U32_MOD ∧ d.generation < U32_MOD ∧ d.session < 18446744073709551616 ∧
    d.nonce.length = 7 ∧ ∀ b ∈ d.nonce, b < 256

/-- Little-endian byte serialization of a `u32` value. -/
def u32le (n : Nat) : List Nat :=
  [n % 256, n / 256 % 256, n / 65536 % 256, n / 16777216 % 256]

/-- Little-endian byte serialization of a `u64` value. -/
def u64le (n : Nat) : List Nat :=
  [n % 256, n / 256 % 256, n / 65536 % 256, n / 16777216 % 256,
   n / 4294967296 % 256, n / 1099511627776 % 256,
   n / 281474976710656 % 256, n / 72057594037927936 % 256]

/-- Model of `zerocopy::IntoBytes` on the `repr(packed)` `TokenData`: the
24-byte layout `age ‖ generation ‖ session ‖ context ‖ nonce`, little-endian
fields, no padding. -/
def TokenData.asBytes (d : TokenData) : List Nat :=
  u32le d.age ++ u32le d.generation ++ u64le d.session ++ (d.context.toByte :: d.nonce)

/-- Symbolic model of a `blake3::Hash` produced by `keyed_hash`: the pair of
the signing key and the hashed message.  This is the ideal-MAC abstraction of
the external `blake3` library: two hashes agree exactly when both the key and
the message agree. -/
structure Hash where
  key : Nat
  message : List Nat
  deriving DecidableEq

/-- Symbolic model of `blake3::keyed_hash`. -/
def keyedHash (key : Nat) (message : List Nat) : Hash :=
  { key := key, message := message }

/-- Model of `Token` (`tokenizer.rs`): plaintext data plus its keyed hash. -/
structure Token where
  data : TokenData
  hash : Hash
  deriving DecidableEq

/-- Model of `TokenData::hash`: `blake3::keyed_hash(key, self.as_bytes())`. -/
def TokenData.hash (d : TokenData) (key : Nat) : Hash :=
  keyedHash key d.asBytes

/-- Model of `Token::is_authentic`: recompute the keyed hash of the data under
`key` and compare it with the stored hash. -/
def Token.isAuthentic (t : Token) (key : Nat) : Bool :=
  t.data.hash key == t.hash

/-- Model of `SessionId` (`session.rs`): a random `u64` id plus an `i64` unix
timestamp. -/
structure SessionId where
  id : Nat
  timestamp : Int
  deriving DecidableEq

/-- Model of `SessionId::value`. -/
def SessionId.value (s : SessionId) : Nat :=
  s.id

/-- Model of `Session` (`session.rs`): an active primary id and an optional
immediately-prior secondary id. -/
structure Session where
  primary : SessionId
  secondary : Option SessionId
  deriving DecidableEq

/-- Model of `Session::id`: the primary id. -/
def Session.id (s : Session) : SessionId :=
  s.primary

/-- Model of `Session::iter`: primary then secondary if present. -/
def Session.iter (s : Session) : List SessionId :=
  s.primary :: s.secondary.toList

/-- Model of `TokenizerState` (`tokenizer.rs`): an age counter plus the
rotatable signing key.  The `AtomicU32` age is a plain counter in this
sequential model. -/
structure TokenizerState where
  age : Nat
  key : Rotatable Nat

/-- Model of `TokenizerState::new`: age 0 with the given key. -/
def TokenizerState.new (key : Rotatable Nat) : TokenizerState :=
  { age := 0, key := key }

/-- Model of `Token::new`: pack the fields (the random nonce is the explicit
`nonce` parameter) and sign them with the current key (`key.as_ref()`). -/
def Token.new (key : Rotatable Nat) (age generation : Nat) (session : Nat)
    (context : Context) (nonce : List Nat) : Token :=
  let data : TokenData :=
    { age := age, generation := generation, session := session,
      context := context, nonce := nonce }
  { data := data, hash := data.hash key.asRef }

/-- Model of `Tokenizer::rotate`: build a fresh state from the current key
(resetting `age` to 0) and rotate in a fresh random key (the explicit
`freshKey` parameter stands for the `generate_and_rotate` draw). -/
def Tokenizer.rotate (s : TokenizerState) (freshKey : Nat) : TokenizerState :=
  let newState := TokenizerState.new s.key
  { newState with key := newState.key.rotate freshKey }

/-- Model of `Tokenizer::token`: capture the age with `fetch_add(1)` (which
returns the pre-increment value) and mint a token signed with the current key
and stamped with the current generation. -/
def Tokenizer.token (s : TokenizerState) (context : Context) (sessionId : SessionId)
    (nonce : List Nat) : Token × TokenizerState :=
  (Token.new s.key s.age s.key.generation sessionId.value context nonce,
   { s with age := (s.age + 1) % U32_MOD })

/-- Model of `Tokenizer::validate`: gate on the saturating generation
difference, then require a session-id match and an authentic signature under
the current or previous key.  `Nat` subtraction is saturating, exactly like
`u32::saturating_sub` on in-range values. -/
def Tokenizer.validate (s : TokenizerState) (t : Token) (session : Session) : Bool :=
  if s.key.generation - t.data.generation ≤ 1 then
    (session.iter.any fun id => t.data.session == id.value) &&
    (s.key.iter.any fun key => t.isAuthentic key)
  else
    false

/-- Model of `base64_len::<T>()` from `lib.rs`:
`(size_of::<T>() * 4).div_ceil(3)`. -/
def base64_len (size : Nat) : Nat :=
  (size * 4 + 2) / 3

/-- Model of `ENCODED_DATA_LEN`: the fixed base64 width of the 24-byte
`TokenData`. -/
def ENCODED_DATA_LEN : Nat := base64_len 24

/-- Model of `ENCODED_HASH_LEN`: the fixed base64 width of the 32-byte
`blake3::Hash`. -/
def ENCODED_HASH_LEN : Nat := base64_len 32

/-- Character code of sextet `v` in the URL-safe base64 alphabet
`A-Z a-z 0-9 - _` (the `BASE64_URL_SAFE_NO_PAD` engine). -/
def b64char (v : Nat) : Nat :=
  if v < 26 then 65 + v
  else if v < 52 then 97 + (v - 26)
  else if v < 62 then 48 + (v - 52)
  else if v = 62 then 45
  else 95

/-- Sextet value of a character code in the URL-safe base64 alphabet;
`none` on any character outside the alphabet (including padding). -/
def b64inv (c : Nat) : Option Nat :=
  if 65 ≤ c ∧ c ≤ 90 then some (c - 65)
  else if 97 ≤ c ∧ c ≤ 122 then some (c - 97 + 26)
  else if 48 ≤ c ∧ c ≤ 57 then some (c - 48 + 52)
  else if c = 45 then some 62
  else if c = 95 then some 63
  else none

/-- URL-safe no-padding base64 encoding of a byte list (the engine's
`encode_string`): three bytes become four sextet characters, with a short
final chunk for one or two leftover bytes. -/
def b64encode : List Nat → List Nat
  | [] => []
  | [a] => [b64char (a / 4), b64char (a % 4 * 16)]
  | [a, b] => [b64char (a / 4), b64char (a % 4 * 16 + b / 16), b64char (b % 16 * 4)]
  | a :: b :: c :: rest =>
      b64char (a / 4) :: b64char (a % 4 * 16 + b / 16) ::
        b64char (b % 16 * 4 + c / 64) :: b64char (c % 64) :: b64encode rest

/-- URL-safe no-padding base64 decoding (the engine's `decode` with its
default strict configuration): rejects characters outside the alphabet, a
length of 1 mod 4, and non-zero trailing bits in a short final chunk. -/
def b64decode : List Nat → Option (List Nat)
  | [] => some []
  | [_] => none
  | [w, x] =>
      match b64inv w, b64inv x with
      | some sw, some sx =>
          if sx % 16 = 0 then some [sw * 4 + sx / 16] else none
      | _, _ => none
  | [w, x, y] =>
      match b64inv w, b64inv x, b64inv y with
      | some sw, some sx, some sy =>
          if sy % 4 = 0 then some [sw * 4 + sx / 16, sx % 16 * 16 + sy / 4] else none
      | _, _, _ => none
  | w :: x :: y :: z :: rest =>
      match b64inv w, b64inv x, b64inv y, b64inv z, b64decode rest with
      | some sw, some sx, some sy, some sz, some tail =>
          some ((sw * 4 + sx / 16) :: (sx % 16 * 16 + sy / 4) :: (sy % 4 * 64 + sz) :: tail)
      | _, _, _, _, _ => none

/-- Little-endian reinterpretation of the first four bytes as a `u32`. -/
def readU32le (bs : List Nat) : Nat :=
  bs.getD 0 0 + bs.getD 1 0 * 256 + bs.getD 2 0 * 65536 + bs.getD 3 0 * 16777216

/-- Little-endian reinterpretation of the first eight bytes as a `u64`. -/
def readU64le (bs : List Nat) : Nat :=
  bs.getD 0 0 + bs.getD 1 0 * 256 + bs.getD 2 0 * 65536 + bs.getD 3 0 * 16777216 +
    bs.getD 4 0 * 4294967296 + bs.getD 5 0 * 1099511627776 +
    bs.getD 6 0 * 281474976710656 + bs.getD 7 0 * 72057594037927936

/-- Model of `TokenData::try_read_from` (`zerocopy::TryFromBytes` on the
packed 24-byte layout): require exactly 24 bytes and a valid context
discriminant at offset 16, then reinterpret the fields in place. -/
def TokenData.tryReadFrom (bytes : List Nat) : Option TokenData :=
  if bytes.length = 24 then
    match Context.ofByte (bytes.getD 16 0) with
    | some context =>
        some { age := readU32le bytes
               generation := readU32le (bytes.drop 4)
               session := readU64le (bytes.drop 8)
               context := context
               nonce := bytes.drop 17 }
    | none => none
  else none

/-- Wire-level view of a `Token` for the `ToString` and `FromStr` impls in
`tokenizer.rs`: those impls only touch `hash.as_bytes()`, the 32 raw bytes
of the `blake3::Hash`, so here the hash is those 32 bytes. -/
structure WireToken where
  data : TokenData
  hash : List Nat
  deriving DecidableEq

/-- Model of `blake3::Hash::from_bytes` composed with the `try_into` to
`[u8; 32]` in `FromStr`: succeeds exactly on 32 bytes. -/
def hashFromBytes (bs : List Nat) : Option (List Nat) :=
  if bs.length = 32 then some bs else none

/-- Model of the `ToString` impl for `Token`: base64 of the data bytes
immediately followed by base64 of the hash bytes, no separator. -/
def WireToken.render (t : WireToken) : List Nat :=
  b64encode t.data.asBytes ++ b64encode t.hash

/-- Model of the `FromStr` impl for `Token`: reject any string that is not
exactly `ENCODED_DATA_LEN + ENCODED_HASH_LEN` characters long, split at
`ENCODED_DATA_LEN`, base64-decode both halves, reinterpret the data bytes
and rebuild the hash from its bytes.  `none` models `Err(())`. -/
def WireToken.fromStr (s : List Nat) : Option WireToken :=
  if s.length = ENCODED_DATA_LEN + ENCODED_HASH_LEN then
    match b64decode (s.take ENCODED_DATA_LEN), b64decode (s.drop ENCODED_DATA_LEN) with
    | some dataBytes, some hashBytes =>
        match TokenData.tryReadFrom dataBytes, hashFromBytes hashBytes with
        | some data, some hash => some { data := data, hash := hash }
        | _, _ => none
    | _, _ => none
  else none

/-- Model of `Rotate` (`config.rs`): rotation period and window in whole
hours, both `u8` fields. -/
structure Rotate where
  period : Nat
  window : Nat
  deriving DecidableEq

/-- Model of `Config` (`config.rs`). -/
structure Config where
  enable : Bool
  rotate : Rotate
  deriving DecidableEq

/-- Model of `Config::default`: enabled, period 24 hours, window 6 hours. -/
def Config.defaultConfig : Config :=
  { enable := true, rotate := { period := 24, window := 6 } }

/-- Model of `Rotate::period` in seconds. -/
def Rotate.periodSecs (r : Rotate) : Nat :=
  r.period * 3600

/-- Model of `Rotate::window` in seconds. -/
def Rotate.windowSecs (r : Rotate) : Nat :=
  r.window * 3600

/-- Model of `Rotate::epoch` in seconds: `period.saturating_sub(window)`
hours (`Nat` subtraction is saturating). -/
def Rotate.epochSecs (r : Rotate) : Nat :=
  (r.period - r.window) * 3600

/-- Model of `TokenizerFairing::new` (`fairing.rs`): it unconditionally
returns `Some`, performing no validation of the configuration. -/
def TokenizerFairing.new (config : Config) : Option Config :=
  some config

/-- Model of the ignite decision in `Tokenizer::fairing` (`fairing.rs`) for
a successfully extracted configuration: when `enable` is set the fairing
attaches exactly when `TokenizerFairing::new` succeeds; when `enable` is
unset nothing attaches. -/
def fairingActivates (config : Config) : Bool :=
  config.enable && (TokenizerFairing.new config).isSome

/-- Result of reading and parsing one private session cookie
(`jar.get_private` followed by `parse::<SessionId>`): the cookie is absent,
fails to decode, or holds a `SessionId`. -/
inductive CookieRead where
  | missing
  | invalid
  | found (id : SessionId)

/-- Model of `time::Duration::MAX` in whole seconds. -/
def durationMax : Int :=
  9223372036854775807

/-- Model of `i64::checked_sub`. -/
def checkedSub (a b : Int) : Option Int :=
  if -9223372036854775808 ≤ a - b ∧ a - b ≤ 9223372036854775807 then some (a - b)
  else none

/-- Model of `SessionId::validity`: `Ok(time remaining)` or
`Err(time expired past max_age)`, durations in seconds, measured against the
supplied current unix time `now`. -/
def SessionId.validity (sid : SessionId) (now maxAge : Int) : Except Int Int :=
  match checkedSub now sid.timestamp with
  | some elapsed =>
      if elapsed > maxAge then .error (elapsed - maxAge) else .ok (maxAge - elapsed)
  | none => .error durationMax

/-- Model of the `Error` enum in `session.rs`. -/
inductive FetchError where
  | expired (id : SessionId) (elapsed : Int)
  | invalid
  | missing

/-- Model of `SessionId::fetch`: read the private cookie, parse it, and
check its validity against `maxAge`. -/
def SessionId.fetchCookie (cookie : CookieRead) (now maxAge : Int) :
    Except FetchError SessionId :=
  match cookie with
  | .missing => .error .missing
  | .invalid => .error .invalid
  | .found id =>
      match id.validity now maxAge with
      | .ok _ => .ok id
      | .error elapsed => .error (.expired id elapsed)

/-- Name of the primary session cookie. -/
def PRIMARY_ID : String := "__rocket_csrfsession_a"

/-- Name of the secondary session cookie. -/
def SECONDARY_ID : String := "__rocket_csrfsession_b"

/-- Model of `Session::_fetch`.  The cookie jar is the pair of cookie reads,
`now` is the current unix time, and `freshPrimary` stands for the
`rand::random::<SessionId>()` draw.  Returns the resulting session together
with the list of cookie writes (`insert_into` calls) performed, in order.
`max_age` is `Duration::hours(3)`. -/
def Session.fetchCore (primaryCookie secondaryCookie : CookieRead) (now : Int)
    (freshPrimary : SessionId) : Session × List (String × SessionId) :=
  let maxAge : Int := 3 * 3600
  match SessionId.fetchCookie primaryCookie now maxAge with
  | .ok primary =>
      ({ primary := primary,
         secondary := (SessionId.fetchCookie secondaryCookie now maxAge).toOption }, [])
  | .error (.expired id elapsed) =>
      if elapsed < maxAge then
        ({ primary := freshPrimary, secondary := some id },
         [(PRIMARY_ID, freshPrimary), (SECONDARY_ID, id)])
      else
        ({ primary := freshPrimary,
           secondary := (SessionId.fetchCookie secondaryCookie now maxAge).toOption },
         [(PRIMARY_ID, freshPrimary)])
  | .error _ =>
      ({ primary := freshPrimary,
         secondary := (SessionId.fetchCookie secondaryCookie now maxAge).toOption },
       [(PRIMARY_ID, freshPrimary)])

/-- Concrete session id used by the witness theorems. -/
def wSid : SessionId :=
  { id := 99, timestamp := 0 }

/-- Concrete session used by the witness theorems. -/
def wSession : Session :=
  { primary := wSid, secondary := none }

/-- Concrete 7-byte nonce used by the witness theorems. -/
def wNonce : List Nat :=
  [1, 2, 3, 4, 5, 6, 7]

/-- Concrete fresh tokenizer state used by the witness theorems. -/
def wState0 : TokenizerState :=
  { age := 0, key := Rotatable.new 11 }

/-- Concrete token carrying a generation ahead of `wState0`'s key. -/
def wFutureToken : Token :=
  Token.new { generation := 5, current := 11, previous := none } 0 5 99 Context.Form wNonce

/-- Concrete wellformed token data used by the wire-format witnesses. -/
def wWireData : TokenData :=
  { age := 3, generation := 4, session := 5, context := Context.Form,
    nonce := [9, 8, 7, 6, 5, 4, 3] }

/-- Concrete 32-byte hash used by the wire-format witnesses. -/
def wWireHash : List Nat :=
  List.replicate 32 170

/-- Concrete wire token used by the wire-format witnesses. -/
def wWire : WireToken :=
  { data := wWireData, hash := wWireHash }

/-! Helper lemmas shared by the claim theorems. -/

theorem token_fst_data (s : TokenizerState) (context : Context) (sid : SessionId)
    (nonce : List Nat) :
    (Tokenizer.token s context sid nonce).1.data =
      { age := s.age, generation := s.key.generation, session := sid.value,
        context := context, nonce := nonce } := rfl

theorem isAuthentic_new (key : Rotatable Nat) (k age generation session : Nat)
    (context : Context) (nonce : List Nat) :
    (Token.new key age generation session context nonce).isAuthentic k =
      (k == key.current) := by
  unfold Token.new Token.isAuthentic TokenData.hash keyedHash Rotatable.asRef
  by_cases h : k = key.current
  · subst h; simp
  · simp [h, Hash.mk.injEq]

theorem token_isAuthentic (s : TokenizerState) (context : Context) (sid : SessionId)
    (nonce : List Nat) (k : Nat) :
    (Tokenizer.token s context sid nonce).1.isAuthentic k = (k == s.key.current) :=
  isAuthentic_new s.key k s.age s.key.generation sid.value context nonce

theorem wrap_sub_le (g : Nat) : (g + 1) % U32_MOD - g ≤ 1 := by
  unfold U32_MOD
  omega

theorem validate_true_iff (s : TokenizerState) (t : Token) (session : Session) :
    Tokenizer.validate s t session = true ↔
      (s.key.generation - t.data.generation ≤ 1 ∧
       (∃ id ∈ session.iter, t.data.session = id.value) ∧
       (∃ k ∈ s.key.iter, t.isAuthentic k = true)) := by
  unfold Tokenizer.validate
  split
  · rename_i h
    simp [List.any_eq_true, h]
  · rename_i h
    simp only [Bool.false_eq_true, false_iff, not_and]
    intro h1
    exact absurd h1 h

/-! Claim theorems. -/

/-- C1: `Tokenizer::validate` returns true iff (1) the current key generation
minus the token's generation, with saturating subtraction, is at most 1,
(2) the token's embedded session value equals the primary or secondary id of
the supplied session, and (3) the token's keyed hash verifies against the
current or the immediately-previous signing key; and whenever condition (1)
fails the result is false. -/
theorem validate_accepts_iff (s : TokenizerState) (t : Token) (session : Session) :
    (Tokenizer.validate s t session = true ↔
      (s.key.generation - t.data.generation ≤ 1 ∧
       (∃ id ∈ session.iter, t.data.session = id.value) ∧
       (∃ k ∈ s.key.iter, t.isAuthentic k = true))) ∧
    (1 < s.key.generation - t.data.generation →
      Tokenizer.validate s t session = false) := by
  refine ⟨validate_true_iff s t session, fun h => ?_⟩
  cases hv : Tokenizer.validate s t session
  · rfl
  · exact absurd ((validate_true_iff s t session).mp hv).1 (by omega)

/-- C2: a token issued while the key generation was G, for a session id
present in the supplied session, still validates after exactly one
`rotate()` call and is rejected after two consecutive `rotate()` calls.  The
hypotheses `h1` and `h2` record that the two freshly drawn random keys
differ from the key the token was signed with. -/
theorem rotation_tolerance (s0 : TokenizerState) (context : Context) (sid : SessionId)
    (session : Session) (nonce : List Nat) (k1 k2 : Nat)
    (hmem : sid ∈ session.iter)
    (h1 : k1 ≠ s0.key.current) (h2 : k2 ≠ s0.key.current) :
    Tokenizer.validate (Tokenizer.rotate (Tokenizer.token s0 context sid nonce).2 k1)
      (Tokenizer.token s0 context sid nonce).1 session = true ∧
    Tokenizer.validate
      (Tokenizer.rotate (Tokenizer.rotate (Tokenizer.token s0 context sid nonce).2 k1) k2)
      (Tokenizer.token s0 context sid nonce).1 session = false := by
  constructor
  · rw [validate_true_iff]
    refine ⟨?_, ⟨sid, hmem, rfl⟩, ⟨s0.key.current, ?_, ?_⟩⟩
    · exact wrap_sub_le s0.key.generation
    · simp [Tokenizer.rotate, Tokenizer.token, TokenizerState.new, Rotatable.rotate,
            Rotatable.iter]
    · rw [token_isAuthentic]
      simp
  · rw [Bool.eq_false_iff]
    intro hv
    obtain ⟨-, -, k, hk, hauth⟩ := (validate_true_iff _ _ _).mp hv
    rw [token_isAuthentic] at hauth
    simp only [Tokenizer.rotate, Tokenizer.token, TokenizerState.new, Rotatable.rotate,
               Rotatable.iter, Option.toList, List.mem_cons, List.mem_singleton,
               List.not_mem_nil, or_false] at hk
    have hkc : k = s0.key.current := by simpa using hauth
    rcases hk with rfl | rfl
    · exact h2 hkc
    · exact h1 hkc

/-- Witness for C2 at a concrete state, session and pair of fresh keys. -/
theorem rotation_tolerance_witness :
    Tokenizer.validate (Tokenizer.rotate (Tokenizer.token wState0 Context.Form wSid wNonce).2 21)
      (Tokenizer.token wState0 Context.Form wSid wNonce).1 wSession = true ∧
    Tokenizer.validate
      (Tokenizer.rotate (Tokenizer.rotate (Tokenizer.token wState0 Context.Form wSid wNonce).2 21) 22)
      (Tokenizer.token wState0 Context.Form wSid wNonce).1 wSession = false :=
  rotation_tolerance wState0 Context.Form wSid wSession wNonce 21 22
    (by decide) (by decide) (by decide)

/-- C6: a freshly issued token validates — for every context and session,
validating `token(context, session.id())` against the same tokenizer (whose
state only advanced its age counter) succeeds. -/
theorem fresh_token_validates (s : TokenizerState) (context : Context)
    (session : Session) (nonce : List Nat) :
    Tokenizer.validate (Tokenizer.token s context session.id nonce).2
      (Tokenizer.token s context session.id nonce).1 session = true := by
  rw [validate_true_iff]
  refine ⟨by simp [Tokenizer.token, Token.new], ⟨session.primary, ?_, rfl⟩,
          ⟨s.key.current, ?_, ?_⟩⟩
  · simp [Session.iter]
  · simp [Tokenizer.token, Rotatable.iter]
  · rw [token_isAuthentic]
    simp

/-- C8: rotation postcondition — after `Tokenizer::rotate` the published
state has age 0, generation incremented by exactly 1 (wrapping at `2 ^ 32`),
`previous` holding the key that was current before the rotation, and the
fresh key as `current`; `Rotatable::new` has generation 0 and no previous
value, and `Rotatable::iter` yields current then previous if present. -/
theorem rotate_postcondition {α : Type} (s : TokenizerState) (freshKey : Nat)
    (v : α) (r : Rotatable α) :
    (Tokenizer.rotate s freshKey).age = 0 ∧
    (Tokenizer.rotate s freshKey).key.generation = (s.key.generation + 1) % U32_MOD ∧
    (Tokenizer.rotate s freshKey).key.previous = some s.key.current ∧
    (Tokenizer.rotate s freshKey).key.current = freshKey ∧
    (Rotatable.new v).generation = 0 ∧
    (Rotatable.new v).previous = none ∧
    (r.previous = none → r.iter = [r.current]) ∧
    (∀ p, r.previous = some p → r.iter = [r.current, p]) := by
  refine ⟨rfl, rfl, rfl, rfl, rfl, rfl, fun h => ?_, fun p h => ?_⟩ <;>
    simp [Rotatable.iter, h]

/-- C9: validation never compares the token's context against the submission
channel — for any minting state and any validating state, a token minted
with the Javascript context and one minted with the Form context (same
session id and nonce draw) produce the same validate outcome. -/
theorem validate_ignores_context (sMint sVal : TokenizerState) (session : Session)
    (sid : SessionId) (nonce : List Nat) :
    Tokenizer.validate sVal (Tokenizer.token sMint Context.Javascript sid nonce).1 session =
      Tokenizer.validate sVal (Tokenizer.token sMint Context.Form sid nonce).1 session := by
  unfold Tokenizer.validate
  simp only [token_fst_data, token_isAuthentic]

/-- C10: future-generation tokens pass the staleness gate — when the token's
embedded generation is strictly greater than the current key generation, the
saturating subtraction yields 0, so validate reduces to the session and
signature checks alone. -/
theorem future_generation_passes_gate (s : TokenizerState) (t : Token)
    (session : Session) (hgen : s.key.generation < t.data.generation) :
    s.key.generation - t.data.generation = 0 ∧
    Tokenizer.validate s t session =
      ((session.iter.any fun id => t.data.session == id.value) &&
       (s.key.iter.any fun key => t.isAuthentic key)) := by
  have h0 : s.key.generation - t.data.generation = 0 := by omega
  refine ⟨h0, ?_⟩
  simp [Tokenizer.validate, h0]

/-- Witness for C10 at a concrete state and token five generations ahead. -/
theorem future_generation_passes_gate_witness :
    wState0.key.generation - wFutureToken.data.generation = 0 ∧
    Tokenizer.validate wState0 wFutureToken wSession =
      ((wSession.iter.any fun id => wFutureToken.data.session == id.value) &&
       (wState0.key.iter.any fun key => wFutureToken.isAuthentic key)) :=
  future_generation_passes_gate wState0 wFutureToken wSession (by decide)

/-! Base64 and serialization lemmas. -/

theorem b64inv_b64char_fin : ∀ v : Fin 64, b64inv (b64char v.val) = some v.val := by
  decide

theorem b64inv_b64char (v : Nat) (h : v < 64) : b64inv (b64char v) = some v :=
  b64inv_b64char_fin ⟨v, h⟩

theorem b64decode_b64encode (bs : List Nat) (h : ∀ b ∈ bs, b < 256) :
    b64decode (b64encode bs) = some bs := by
  induction bs using b64encode.induct with
  | case1 => rfl
  | case2 a =>
      have ha : a < 256 := h a (by simp)
      simp only [b64encode, b64decode,
        b64inv_b64char (a / 4) (by omega),
        b64inv_b64char (a % 4 * 16) (by omega)]
      rw [if_pos (by omega)]
      simp only [Option.some.injEq, List.cons.injEq, and_true]
      omega
  | case3 a b =>
      have ha : a < 256 := h a (by simp)
      have hb : b < 256 := h b (by simp)
      simp only [b64encode, b64decode,
        b64inv_b64char (a / 4) (by omega),
        b64inv_b64char (a % 4 * 16 + b / 16) (by omega),
        b64inv_b64char (b % 16 * 4) (by omega)]
      rw [if_pos (by omega)]
      simp only [Option.some.injEq, List.cons.injEq, and_true]
      exact ⟨by omega, by omega⟩
  | case4 a b c rest ih =>
      have ha : a < 256 := h a (by simp)
      have hb : b < 256 := h b (by simp)
      have hc : c < 256 := h c (by simp)
      have hrest : ∀ x ∈ rest, x < 256 := fun x hx => h x (by simp [hx])
      simp only [b64encode, b64decode,
        b64inv_b64char (a / 4) (by omega),
        b64inv_b64char (a % 4 * 16 + b / 16) (by omega),
        b64inv_b64char (b % 16 * 4 + c / 64) (by omega),
        b64inv_b64char (c % 64) (by omega),
        ih hrest]
      simp only [Option.some.injEq, List.cons.injEq, and_true]
      exact ⟨by omega, by omega, by omega⟩

theorem b64encode_length (bs : List Nat) :
    (b64encode bs).length = (bs.length * 4 + 2) / 3 := by
  induction bs using b64encode.induct with
  | case1 => rfl
  | case2 a => simp [b64encode]
  | case3 a b => simp [b64encode]
  | case4 a b c rest ih =>
      simp only [b64encode, List.length_cons, ih]
      omega

theorem u32le_lt (n : Nat) : ∀ b ∈ u32le n, b < 256 := by
  intro b hb
  simp only [u32le, List.mem_cons, List.not_mem_nil, or_false] at hb
  rcases hb with rfl | rfl | rfl | rfl <;> omega

theorem u64le_lt (n : Nat) : ∀ b ∈ u64le n, b < 256 := by
  intro b hb
  simp only [u64le, List.mem_cons, List.not_mem_nil, or_false] at hb
  rcases hb with rfl | rfl | rfl | rfl | rfl | rfl | rfl | rfl <;> omega

theorem asBytes_length (d : TokenData) (h7 : d.nonce.length = 7) :
    d.asBytes.length = 24 := by
  simp [TokenData.asBytes, u32le, u64le, h7]

theorem asBytes_lt_256 (d : TokenData) (h : ∀ b ∈ d.nonce, b < 256) :
    ∀ b ∈ d.asBytes, b < 256 := by
  intro b hb
  unfold TokenData.asBytes at hb
  rcases List.mem_append.mp hb with hb | hb
  · rcases List.mem_append.mp hb with hb | hb
    · rcases List.mem_append.mp hb with hb | hb
      · exact u32le_lt _ b hb
      · exact u32le_lt _ b hb
    · exact u64le_lt _ b hb
  · rcases List.mem_cons.mp hb with h1 | h1
    · subst h1
      cases d.context <;> norm_num [Context.toByte]
    · exact h b h1

theorem ofByte_toByte (c : Context) : Context.ofByte c.toByte = some c := by
  cases c <;> rfl

theorem tryReadFrom_asBytes (d : TokenData) (hWF : d.WF) :
    TokenData.tryReadFrom d.asBytes = some d := by
  obtain ⟨h1, h2, h3, h4, h5⟩ := hWF
  unfold U32_MOD at h1 h2
  obtain ⟨age, generation, session, context, nonce⟩ := d
  simp only at h1 h2 h3 h4 h5
  have hb : TokenData.asBytes ⟨age, generation, session, context, nonce⟩ =
      age % 256 :: age / 256 % 256 :: age / 65536 % 256 :: age / 16777216 % 256 ::
      generation % 256 :: generation / 256 % 256 :: generation / 65536 % 256 ::
      generation / 16777216 % 256 ::
      session % 256 :: session / 256 % 256 :: session / 65536 % 256 ::
      session / 16777216 % 256 :: session / 4294967296 % 256 ::
      session / 1099511627776 % 256 :: session / 281474976710656 % 256 ::
      session / 72057594037927936 % 256 :: context.toByte :: nonce := by
    simp [TokenData.asBytes, u32le, u64le]
  rw [hb]
  unfold TokenData.tryReadFrom
  rw [if_pos (by simp [h4])]
  simp only [List.getD_cons_succ, List.getD_cons_zero, List.drop_succ_cons, List.drop_zero,
             ofByte_toByte, readU32le, readU64le]
  simp only [Option.some.injEq, TokenData.mk.injEq, and_true]
  exact ⟨by omega, by omega, by omega⟩

/-- C4: token text-encoding round-trip — for every token with wellformed
data and a 32-byte hash, parsing the rendered string succeeds and yields a
token with identical fields and hash. -/
theorem token_encode_roundtrip (t : WireToken) (hWF : t.data.WF)
    (hlen : t.hash.length = 32) (hlt : ∀ b ∈ t.hash, b < 256) :
    WireToken.fromStr t.render = some t := by
  have h7 : t.data.nonce.length = 7 := hWF.2.2.2.1
  have hdlen : (b64encode t.data.asBytes).length = ENCODED_DATA_LEN := by
    rw [b64encode_length, asBytes_length t.data h7]
    rfl
  have hhlen : (b64encode t.hash).length = ENCODED_HASH_LEN := by
    rw [b64encode_length, hlen]
    rfl
  have hdd : b64decode (b64encode t.data.asBytes) = some t.data.asBytes :=
    b64decode_b64encode t.data.asBytes (asBytes_lt_256 t.data hWF.2.2.2.2)
  have hdh : b64decode (b64encode t.hash) = some t.hash :=
    b64decode_b64encode t.hash hlt
  have htr : TokenData.tryReadFrom t.data.asBytes = some t.data :=
    tryReadFrom_asBytes t.data hWF
  have hh : hashFromBytes t.hash = some t.hash := by
    unfold hashFromBytes
    rw [if_pos hlen]
  unfold WireToken.fromStr WireToken.render
  rw [if_pos (by simp [hdlen, hhlen])]
  rw [List.take_left' hdlen, List.drop_left' hdlen]
  simp only [hdd, hdh, htr, hh]

/-- Witness for C4 at a concrete wellformed wire token. -/
theorem token_encode_roundtrip_witness :
    WireToken.fromStr wWire.render = some wWire :=
  token_encode_roundtrip wWire (by refine ⟨?_, ?_, ?_, ?_, ?_⟩ <;> decide)
    (by decide) (by decide)

/-- C5: decoding is total and rejecting — any string whose length differs
from the fixed expected length is rejected, as is any correct-length string
with invalid base64 in either half or whose decoded data bytes carry an
invalid context discriminant (the byte at offset 16). -/
theorem fromStr_rejects_malformed (s : List Nat)
    (h : s.length ≠ ENCODED_DATA_LEN + ENCODED_HASH_LEN ∨
         b64decode (s.take ENCODED_DATA_LEN) = none ∨
         b64decode (s.drop ENCODED_DATA_LEN) = none ∨
         (∃ bytes, b64decode (s.take ENCODED_DATA_LEN) = some bytes ∧
            Context.ofByte (bytes.getD 16 0) = none)) :
    WireToken.fromStr s = none := by
  unfold WireToken.fromStr
  by_cases hl : s.length = ENCODED_DATA_LEN + ENCODED_HASH_LEN
  · rw [if_pos hl]
    rcases h with h | h | h | ⟨bytes, hb, hc⟩
    · exact absurd hl h
    · rw [h]
    · cases hd : b64decode (s.take ENCODED_DATA_LEN)
      · rfl
      · rw [h]
    · have htr : TokenData.tryReadFrom bytes = none := by
        unfold TokenData.tryReadFrom
        split
        · rw [hc]
        · rfl
      rw [hb]
      cases hd : b64decode (s.drop ENCODED_DATA_LEN)
      · rfl
      · simp only [htr]
  · rw [if_neg hl]

/-- Witness for C5: the empty string has the wrong length and is rejected. -/
theorem fromStr_rejects_malformed_witness : WireToken.fromStr [] = none :=
  fromStr_rejects_malformed [] (Or.inl (by decide))

/-- C3 (code bug): `TokenizerFairing::new` performs no validation of the
configuration, so a malformed rotation configuration with `window ≥ period`
still activates the fairing instead of failing startup, and the derived
epoch saturates to 0. -/
theorem malformed_rotation_still_activates :
    fairingActivates { enable := true, rotate := { period := 6, window := 24 } } = true ∧
    Rotate.epochSecs { period := 6, window := 24 } = 0 ∧
    TokenizerFairing.new { enable := true, rotate := { period := 6, window := 24 } } =
      some { enable := true, rotate := { period := 6, window := 24 } } :=
  ⟨rfl, rfl, rfl⟩

/-- C7: session fetch grace branch — when the primary cookie decodes to an
id whose age exceeds the 3-hour maximum by strictly less than the max-age
window, fetch mints a fresh random primary, demotes the expired id to
secondary, writes both cookies back, and the expired id stays reachable via
`Session::iter`. -/
theorem session_fetch_grace (id freshPrimary : SessionId) (secondaryCookie : CookieRead)
    (now : Int)
    (hsub : checkedSub now id.timestamp = some (now - id.timestamp))
    (hexp : 10800 < now - id.timestamp)
    (hgrace : now - id.timestamp - 10800 < 10800) :
    Session.fetchCore (.found id) secondaryCookie now freshPrimary =
      ({ primary := freshPrimary, secondary := some id },
       [(PRIMARY_ID, freshPrimary), (SECONDARY_ID, id)]) ∧
    id ∈ ((Session.fetchCore (.found id) secondaryCookie now freshPrimary).1).iter := by
  have hval : SessionId.validity id now (3 * 3600) =
      .error (now - id.timestamp - 3 * 3600) := by
    unfold SessionId.validity
    simp only [hsub]
    rw [if_pos (show now - id.timestamp > 3 * 3600 by omega)]
  have hfetch : SessionId.fetchCookie (.found id) now (3 * 3600) =
      .error (.expired id (now - id.timestamp - 3 * 3600)) := by
    simp only [SessionId.fetchCookie, hval]
  have heq : Session.fetchCore (.found id) secondaryCookie now freshPrimary =
      ({ primary := freshPrimary, secondary := some id },
       [(PRIMARY_ID, freshPrimary), (SECONDARY_ID, id)]) := by
    simp only [Session.fetchCore, hfetch]
    rw [if_pos (show now - id.timestamp - 3 * 3600 < 3 * 3600 by omega)]
  refine ⟨heq, ?_⟩
  rw [heq]
  simp [Session.iter]

/-- Witness for C7 one second past expiry: the expired primary is demoted to
secondary and both cookies are rewritten. -/
theorem session_fetch_grace_witness :
    Session.fetchCore (.found { id := 42, timestamp := 0 }) .missing 10801
        { id := 77, timestamp := 10801 } =
      ({ primary := { id := 77, timestamp := 10801 },
         secondary := some { id := 42, timestamp := 0 } },
       [(PRIMARY_ID, { id := 77, timestamp := 10801 }),
        (SECONDARY_ID, { id := 42, timestamp := 0 })]) ∧
    ({ id := 42, timestamp := 0 } : SessionId) ∈
      ((Session.fetchCore (.found { id := 42, timestamp := 0 }) .missing 10801
          { id := 77, timestamp := 10801 }).1).iter :=
  session_fetch_grace { id := 42, timestamp := 0 } { id := 77, timestamp := 10801 }
    .missing 10801 (by decide) (by decide) (by decide)

end RocketCsrf
